import Mathlib

/-!
Shallow embedding of `surreal/session/tmux_cluster.py` (class `TmuxCluster`)
together with a model of the terminal-multiplexer backend it drives.

The backend (`TmuxRunner`, module `surreal.session.tmux_runner`) is not part
of the excerpted sources; it is modelled from the spec's backend contract
(spec section 6): session/window create, kill, list, and pane-capture
primitives, with window kills and session kills being no-ops on absent
targets.  Orchestrator state-changing operations are embedded as functions
from a backend state to a new backend state together with a trace of the
mutating backend calls they issued, so that claims about "which backend
calls are issued" can be stated directly.
-/

/-- Errors raised by the Python code: `assert` statements raise
`AssertionError` (empty message when the `assert` has none) and explicit
`raise ValueError(...)` raises `ValueError`. -/
inductive PyError where
  | assertionError (msg : String)
  | valueError (msg : String)
deriving DecidableEq

instance {ε α : Type} [DecidableEq ε] [DecidableEq α] : DecidableEq (Except ε α) := fun a b =>
  match a, b with
  | .ok x, .ok y =>
    if h : x = y then .isTrue (by rw [h]) else .isFalse (by simp [h])
  | .error x, .error y =>
    if h : x = y then .isTrue (by rw [h]) else .isFalse (by simp [h])
  | .ok _, .error _ => .isFalse (by simp)
  | .error _, .ok _ => .isFalse (by simp)

/-- A mutating call issued against the multiplexer backend.
`runCmd` is `TmuxRunner.run(session_name, window_name, cmd)` (create a
window running a command), `killWindow`/`killSession` are
`TmuxRunner.kill` with and without a window argument. -/
inductive TmuxCall where
  | runCmd (session window cmd : String)
  | killWindow (session window : String)
  | killSession (session : String)
deriving DecidableEq

/-- The session a backend call targets. -/
def TmuxCall.session : TmuxCall → String
  | .runCmd s _ _ => s
  | .killWindow s _ => s
  | .killSession s => s

/-- One window of a tmux session.  `cmd` is the command it was started
with.  `pane` and `err` model the backend's pane-capture primitives
(spec section 6): `pane h` is the captured list of visible lines plus `h`
scroll-back lines, `err h` is the backend's error-signature search over
that capture.  Both are owned by the backend; the orchestrator only reads
them. -/
structure Window where
  name : String
  cmd : String
  pane : Nat → List String
  err : Nat → Option String

/-- Backend state: the ordered list of sessions, each an ordered list of
windows.  Modelled from the spec (section 6): the multiplexer owns all
session/window state; the orchestrator holds none. -/
structure TmuxState where
  sessions : List (String × List Window)

/-- Backend `list_session_names`. -/
def TmuxState.sessionNames (st : TmuxState) : List String :=
  st.sessions.map Prod.fst

/-- Look up a session's window list by name (first match). -/
def TmuxState.findSession (st : TmuxState) (session : String) : Option (List Window) :=
  (st.sessions.find? (fun p => p.1 == session)).map Prod.snd

/-- Backend `list_window_names`: ordered window names of a session, empty
for an absent session. -/
def TmuxState.listWindowNames (st : TmuxState) (session : String) : List String :=
  match st.findSession session with
  | some ws => ws.map Window.name
  | none => []

/-- A freshly created window: its pane content is owned by the backend and
starts empty in the model. -/
def Window.fresh (name cmd : String) : Window :=
  ⟨name, cmd, fun _ => [], fun _ => none⟩

/-- Backend `run(session, window, cmd)`: create the session if absent and
add a window running `cmd` at the end of its window list. -/
def TmuxState.run (st : TmuxState) (session window cmd : String) : TmuxState :=
  if session ∈ st.sessionNames then
    ⟨st.sessions.map (fun p =>
      if p.1 == session then (p.1, p.2 ++ [Window.fresh window cmd]) else p)⟩
  else
    ⟨st.sessions ++ [(session, [Window.fresh window cmd])]⟩

/-- Backend `kill(session, window)`: remove the first window of that name
from the session; a no-op when the session or window is absent (spec
section 6).  Killing a session's last window removes the session, as in
tmux. -/
def TmuxState.killWindow (st : TmuxState) (session window : String) : TmuxState :=
  ⟨st.sessions.filterMap (fun p =>
    if p.1 == session && p.2.any (fun w => w.name == window) then
      let ws := p.2.eraseP (fun w => w.name == window)
      if ws.isEmpty then none else some (p.1, ws)
    else some p)⟩

/-- Backend `kill(session)`: remove the session; a no-op when absent. -/
def TmuxState.killSession (st : TmuxState) (session : String) : TmuxState :=
  ⟨st.sessions.filter (fun p => !(p.1 == session))⟩

/-- Backend `get_stdout(session, window, history)`: the captured pane
lines of the named window, empty for an absent slot. -/
def TmuxState.capturePane (st : TmuxState) (session window : String) (history : Nat) :
    List String :=
  match st.findSession session with
  | none => []
  | some ws =>
    match ws.find? (fun w => w.name == window) with
    | none => []
    | some w => w.pane history

/-- Backend `check_error(session, window, history)`: the backend's
error-signature search over the captured pane, `none` when the slot is
absent. -/
def TmuxState.findError (st : TmuxState) (session window : String) (history : Nat) :
    Option String :=
  match st.findSession session with
  | none => none
  | some ws =>
    match ws.find? (fun w => w.name == window) with
    | none => none
    | some w => w.err history

/-- Whether an ASCII character is in shlex's safe set: ASCII
alphanumerics, underscore, and the characters @ % + = : , . / -
(model of Python `shlex.quote`'s unsafe-character test). -/
def shlexSafeChar (c : Char) : Bool :=
  let n := c.toNat
  (decide (97 ≤ n) && decide (n ≤ 122)) ||
  (decide (65 ≤ n) && decide (n ≤ 90)) ||
  (decide (48 ≤ n) && decide (n ≤ 57)) ||
  c == '_' || c == '@' || c == '%' || c == '+' || c == '=' ||
  c == ':' || c == ',' || c == '.' || c == '/' || c == '-'

/-- Model of Python `shlex.quote`: the empty string becomes two single
quotes; a string of safe characters is returned unchanged; otherwise the
string is wrapped in single quotes with every embedded single quote
replaced by the five-character sequence quote, double-quote, quote,
double-quote, quote. -/
def shlexQuote (s : String) : String :=
  if s = "" then "\x27\x27"
  else if s.data.all shlexSafeChar then s
  else "\x27" ++ String.join (s.data.map (fun c =>
    if c == Char.ofNat 39 then "\x27\x22\x27\x22\x27" else String.singleton c)) ++ "\x27"

/-- The `replay` and `ps` sub-configurations: a store name and port. -/
structure StoreConfig where
  name : String
  port : Nat
deriving DecidableEq

/-- The `tensorplex` sub-configuration. -/
structure TensorplexConfig where
  port : Nat
  folder : String
  tb_port : Nat
deriving DecidableEq

/-- The merged session configuration (the result of
`Config(session_config).extend(BASE_SESSION_CONFIG)`; the merge itself is
an external collaborator per spec section 1).  `configJson` models
`json.dumps(self.config)`: the JSON serialization of the full merged
configuration, opaque here. -/
structure ClusterConfig where
  replay : StoreConfig
  ps : StoreConfig
  tensorplex : TensorplexConfig
  configJson : String
deriving DecidableEq

/-- `TmuxCluster.LOGGERPLEX_SCRIPT`. -/
def LOGGERPLEX_SCRIPT : String := "surreal.session.run_loggerplex_server"

/-- `TmuxCluster.TENSORPLEX_SCRIPT`. -/
def TENSORPLEX_SCRIPT : String := "surreal.session.run_tensorplex_server"

/-- `TmuxCluster._get_python_cmd`: build a shell command from a script
reference.  Python's `startswith`/`endswith`/`in` are modelled on the
character list of the string. -/
def _get_python_cmd (python_script : String) : Except PyError String :=
  if "python".data.isPrefixOf python_script.data then
    .ok python_script
  else if !(".py".data.isSuffixOf python_script.data) && python_script.data.contains '/' then
    .error (.valueError ("Ill-formed python script " ++ python_script ++
      " should be either pkg1.pkg2.myscript or pkg1/pkg2/myscript.py"))
  else if ".py".data.isSuffixOf python_script.data then
    .ok ("python -u " ++ python_script)
  else
    .ok ("python -u -m " ++ python_script)

/-- One entry of the `agent_args` list: `None`, a raw command string, or a
list of argument tokens (tokens already converted to strings, as the
source applies `str` to each). -/
inductive AgentArg where
  | noneArg
  | strArg (s : String)
  | listArg (xs : List String)
deriving DecidableEq

/-- Normalization of one `agent_args` entry inside
`TmuxCluster._get_agent_info`. -/
def AgentArg.toCmd : AgentArg → String
  | .noneArg => ""
  | .strArg s => s
  | .listArg xs => String.intercalate " " xs

/-- `TmuxCluster._get_agent_info`: names (already strings, as the source
applies `str`) must be duplicate-free and match the argument list in
length; each argument spec is normalized to a single string. -/
def _get_agent_info (agent_names : List String) (agent_args_ : List AgentArg) :
    Except PyError (List String × List String) :=
  if agent_names.Nodup then
    if agent_names.length = agent_args_.length then
      .ok (agent_names, agent_args_.map AgentArg.toCmd)
    else .error (.assertionError "")
  else .error (.assertionError "must not duplicate agent names")

/-- The orchestrator: the immutable data computed by
`TmuxCluster.__init__` (the backend handle is passed to each operation as
an explicit `TmuxState`). -/
structure TmuxCluster where
  cluster_name : String
  config : ClusterConfig
  agent_cmd : String
  learner_cmd : String
  evaluator_cmd : Option String

/-- `self.infras_session = 'infras-' + cluster_name`. -/
def TmuxCluster.infras_session (c : TmuxCluster) : String :=
  "infras-" ++ c.cluster_name

/-- `self.agent_session = 'agent-' + cluster_name`. -/
def TmuxCluster.agent_session (c : TmuxCluster) : String :=
  "agent-" ++ c.cluster_name

/-- `self.learner_session = 'learner-' + cluster_name`. -/
def TmuxCluster.learner_session (c : TmuxCluster) : String :=
  "learner-" ++ c.cluster_name

/-- `TmuxCluster.__init__`: builds the three command strings via
`_get_python_cmd` (the first failure propagates, in source order). -/
def TmuxCluster.make (cluster_name : String) (config : ClusterConfig)
    (agent_script learner_script : String) (evaluator_script : Option String) :
    Except PyError TmuxCluster := do
  let ac ← _get_python_cmd agent_script
  let lc ← _get_python_cmd learner_script
  let ec ← match evaluator_script with
    | none => pure none
    | some s => (_get_python_cmd s).map some
  pure ⟨cluster_name, config, ac, lc, ec⟩

/-- `TmuxCluster._session_group`: map a group tag to its session name;
a tag outside `['agent', 'learner', 'infras']` fails the `assert`. -/
def TmuxCluster._session_group (c : TmuxCluster) (group : String) :
    Except PyError String :=
  if group ∈ ["agent", "learner", "infras"] then
    .ok (if group = "agent" then c.agent_session
         else if group = "learner" then c.learner_session
         else c.infras_session)
  else .error (.assertionError "")

/-- `TmuxCluster.is_launched`: whether the group's session currently
exists on the backend. -/
def TmuxCluster.is_launched (c : TmuxCluster) (st : TmuxState) (group : String) :
    Except PyError Bool :=
  (c._session_group group).map (fun s => decide (s ∈ st.sessionNames))

/-- `TmuxCluster.get_running_agents`: the live window names of the agent
session. -/
def TmuxCluster.get_running_agents (c : TmuxCluster) (st : TmuxState) : List String :=
  st.listWindowNames c.agent_session

/-- `TmuxCluster._get_tensorplex_cmd`: the script's python command with
the JSON-serialized configuration appended as a single shell-quoted
argument. -/
def TmuxCluster._get_tensorplex_cmd (c : TmuxCluster) (script : String) :
    Except PyError String :=
  (_get_python_cmd script).map (fun s => s ++ " " ++ shlexQuote c.config.configJson)

/-- Result of a state-changing orchestrator operation: the backend state
after the call, the trace of mutating backend calls it issued (in order),
and its outcome.  On an error the state and trace reflect the calls
issued before the exception, as in Python. -/
structure OpResult where
  state : TmuxState
  trace : List TmuxCall
  result : Except PyError Unit

/-- `TmuxCluster.add_agents`: normalize and validate the requested fleet,
reject any name already running in the agent session (queried fresh from
the backend), then create one window per agent running the agent command
concatenated with that agent's argument string. -/
def TmuxCluster.add_agents (c : TmuxCluster) (st : TmuxState)
    (agent_names : List String) (agent_args : List AgentArg) : OpResult :=
  match _get_agent_info agent_names agent_args with
  | .error e => ⟨st, [], .error e⟩
  | .ok (names, args) =>
    if ∃ x ∈ c.get_running_agents st, x ∈ names then
      ⟨st, [], .error (.assertionError
        "some agents already running, cannot launch duplicates.")⟩
    else
      ⟨(names.zip args).foldl
        (fun s p => s.run c.agent_session p.1 (c.agent_cmd ++ " " ++ p.2)) st,
       (names.zip args).map
        (fun p => TmuxCall.runCmd c.agent_session p.1 (c.agent_cmd ++ " " ++ p.2)),
       .ok ()⟩

/-- The redis invocation `'redis-server --port {} --protected-mode no'`. -/
def redisCmd (port : Nat) : String :=
  "redis-server --port " ++ toString port ++ " --protected-mode no"

/-- The tensorboard invocation `'tensorboard --logdir {} --port {}'`. -/
def tensorboardCmd (folder : String) (tb_port : Nat) : String :=
  "tensorboard --logdir " ++ folder ++ " --port " ++ toString tb_port

/-- The `(window_name, port)` pairs of the three redis windows, in source
order: replay store, parameter store, plex broker. -/
def TmuxCluster.redisPairs (c : TmuxCluster) : List (String × Nat) :=
  [(c.config.replay.name, c.config.replay.port),
   (c.config.ps.name, c.config.ps.port),
   ("plex", c.config.tensorplex.port)]

/-- The infrastructure block of `TmuxCluster.launch`: when the
infrastructure session is absent, create the three redis windows, then
the loggerplex window, then the tensorplex window, then the tensorboard
window (an exception from `_get_tensorplex_cmd` would propagate with the
windows created so far left in place, as in Python). -/
def TmuxCluster.infraStep (c : TmuxCluster) (st : TmuxState) : OpResult :=
  if c.infras_session ∈ st.sessionNames then ⟨st, [], .ok ()⟩
  else
    let st1 := c.redisPairs.foldl
      (fun s p => s.run c.infras_session ("redis-" ++ p.1) (redisCmd p.2)) st
    let tr1 := c.redisPairs.map
      (fun p => TmuxCall.runCmd c.infras_session ("redis-" ++ p.1) (redisCmd p.2))
    match c._get_tensorplex_cmd LOGGERPLEX_SCRIPT with
    | .error e => ⟨st1, tr1, .error e⟩
    | .ok lcmd =>
      let st2 := st1.run c.infras_session "loggerplex" lcmd
      let tr2 := tr1 ++ [TmuxCall.runCmd c.infras_session "loggerplex" lcmd]
      match c._get_tensorplex_cmd TENSORPLEX_SCRIPT with
      | .error e => ⟨st2, tr2, .error e⟩
      | .ok tcmd =>
        let st3 := st2.run c.infras_session "tensorplex" tcmd
        let tbcmd := tensorboardCmd c.config.tensorplex.folder c.config.tensorplex.tb_port
        ⟨st3.run c.infras_session "tensorboard" tbcmd,
         tr2 ++ [TmuxCall.runCmd c.infras_session "tensorplex" tcmd,
                 TmuxCall.runCmd c.infras_session "tensorboard" tbcmd],
         .ok ()⟩

/-- The learner block of `TmuxCluster.launch`: when the learner session is
absent, create the learner window and, when an evaluator command is
configured, the evaluator window. -/
def TmuxCluster.learnerStep (c : TmuxCluster) (st : TmuxState) :
    TmuxState × List TmuxCall :=
  if c.learner_session ∈ st.sessionNames then (st, [])
  else
    let st1 := st.run c.learner_session "learner" c.learner_cmd
    match c.evaluator_cmd with
    | none => (st1, [TmuxCall.runCmd c.learner_session "learner" c.learner_cmd])
    | some ec =>
      (st1.run c.learner_session "evaluator" ec,
       [TmuxCall.runCmd c.learner_session "learner" c.learner_cmd,
        TmuxCall.runCmd c.learner_session "evaluator" ec])

/-- The agent block of `TmuxCluster.launch`: when the agent session is
absent, delegate to `add_agents` with the caller-supplied initial
fleet. -/
def TmuxCluster.agentStep (c : TmuxCluster) (st : TmuxState)
    (agent_names : List String) (agent_args : List AgentArg) : OpResult :=
  if c.agent_session ∈ st.sessionNames then ⟨st, [], .ok ()⟩
  else c.add_agents st agent_names agent_args

/-- `TmuxCluster.launch`: bring up the infrastructure session, the learner
session, and the initial agent fleet, each only when its session is
absent (`is_launched` on the corresponding tag).  An exception aborts the
remaining blocks but keeps the backend calls already issued. -/
def TmuxCluster.launch (c : TmuxCluster) (st : TmuxState)
    (agent_names : List String) (agent_args : List AgentArg) : OpResult :=
  let i := c.infraStep st
  match i.result with
  | .error e => ⟨i.state, i.trace, .error e⟩
  | .ok () =>
    let l := c.learnerStep i.state
    let a := c.agentStep l.1 agent_names agent_args
    ⟨a.state, i.trace ++ l.2 ++ a.trace, a.result⟩

/-- `TmuxCluster.kill_agents`: require a live agent session, then issue
one window-kill per given name (names already strings, as the source
applies `str`). -/
def TmuxCluster.kill_agents (c : TmuxCluster) (st : TmuxState)
    (agent_names : List String) : OpResult :=
  if c.agent_session ∈ st.sessionNames then
    ⟨agent_names.foldl (fun s n => s.killWindow c.agent_session n) st,
     agent_names.map (fun n => TmuxCall.killWindow c.agent_session n),
     .ok ()⟩
  else ⟨st, [], .error (.assertionError "agents not yet launched")⟩

/-- `TmuxCluster.killall`: kill the agent, learner, and infrastructure
sessions, in that order, regardless of their existence. -/
def TmuxCluster.killall (c : TmuxCluster) (st : TmuxState) : OpResult :=
  ⟨((st.killSession c.agent_session).killSession c.learner_session).killSession
     c.infras_session,
   [TmuxCall.killSession c.agent_session,
    TmuxCall.killSession c.learner_session,
    TmuxCall.killSession c.infras_session],
   .ok ()⟩

/-- `TmuxCluster._iterate_all_windows`: every (session, window-name) pair
over the agent, learner, and infrastructure sessions, in that order,
windows in the backend's listing order. -/
def TmuxCluster._iterate_all_windows (c : TmuxCluster) (st : TmuxState) :
    List (String × String) :=
  [c.agent_session, c.learner_session, c.infras_session].flatMap
    (fun sess => (st.listWindowNames sess).map (fun w => (sess, w)))

/-- `OrderedDict` assignment `od[k] = v`: update in place when the key
exists, else append. -/
def odSet (od : List (String × String)) (k v : String) : List (String × String) :=
  if od.any (fun p => p.1 == k) then
    od.map (fun p => if p.1 == k then (k, v) else p)
  else od ++ [(k, v)]

/-- The `continue`-condition of `get_stdout`'s loop: Python
`if filt and filt != x` (a given but empty filter string is falsy and
does not restrict). -/
def skipByFilter (filt : Option String) (x : String) : Bool :=
  match filt with
  | some f => !(f == "") && !(f == x)
  | none => false

/-- The entry `get_stdout` records for one (session, window) pair: the
`"session:window"` key and the captured pane lines joined by newline. -/
def stdoutPairEntry (st : TmuxState) (history : Nat) (p : String × String) :
    String × String :=
  (p.1 ++ ":" ++ p.2, String.intercalate "\n" (st.capturePane p.1 p.2 history))

/-- The body of `get_stdout`'s loop for one pair: skip it when a filter
rejects it, else the recorded entry. -/
def stdoutEntry (st : TmuxState) (group window : Option String) (history : Nat)
    (p : String × String) : Option (String × String) :=
  if skipByFilter group p.1 then none
  else if skipByFilter window p.2 then none
  else some (stdoutPairEntry st history p)

/-- One loop iteration of the inspection queries: record the produced
entry in the ordered mapping, or skip. -/
def odStep {α : Type} (g : α → Option (String × String))
    (od : List (String × String)) (x : α) : List (String × String) :=
  match g x with
  | some kv => odSet od kv.1 kv.2
  | none => od

/-- The loop of `TmuxCluster.get_stdout` after argument processing:
fold over all (session, window) pairs, recording the surviving entries in
an ordered mapping. -/
def gatherStdout (c : TmuxCluster) (st : TmuxState) (group window : Option String)
    (history : Nat) : List (String × String) :=
  (c._iterate_all_windows st).foldl (odStep (stdoutEntry st group window history)) []

/-- `TmuxCluster.get_stdout`: with no group the window must also be
omitted (`assert window is None`); a given group tag is mapped through
`_session_group` (failing on a bad tag); then every existing
(session, window) pair passing the filters contributes its captured pane
text under the key `"session:window"`. -/
def TmuxCluster.get_stdout (c : TmuxCluster) (st : TmuxState)
    (group window : Option String) (history : Nat) :
    Except PyError (List (String × String)) :=
  match group with
  | none =>
    match window with
    | some _ => .error (.assertionError "")
    | none => .ok (gatherStdout c st none none history)
  | some g =>
    (c._session_group g).map (fun gs => gatherStdout c st (some gs) window history)

/-- The body of `check_error`'s loop for one pair: the backend's
error-signature search at scroll-back depth 100, kept only when truthy
(present and non-empty). -/
def errEntry (st : TmuxState) (p : String × String) : Option (String × String) :=
  match st.findError p.1 p.2 100 with
  | some e => if e == "" then none else some (p.1 ++ ":" ++ p.2, e)
  | none => none

/-- `TmuxCluster.check_error`: scan every (session, window) pair at a
fixed scroll-back depth of 100 lines and record, under the key
`"session:window"`, exactly the entries whose scan found an error. -/
def TmuxCluster.check_error (c : TmuxCluster) (st : TmuxState) :
    List (String × String) :=
  (c._iterate_all_windows st).foldl (odStep (errEntry st)) []

/-- Window-name uniqueness per session for this cluster's three sessions,
as the backend enforces (spec section 3). -/
def clusterWindowsNodup (c : TmuxCluster) (st : TmuxState) : Prop :=
  ∀ s ∈ [c.agent_session, c.learner_session, c.infras_session],
    (st.listWindowNames s).Nodup

instance (c : TmuxCluster) (st : TmuxState) : Decidable (clusterWindowsNodup c st) := by
  unfold clusterWindowsNodup
  infer_instance

/-! Concrete instances used to exercise the definitions. -/

/-- A concrete merged configuration for the `"exp1"` scenario (the JSON
serialization field holds a serialized empty object). -/
def cfgDemo : ClusterConfig :=
  ⟨⟨"replay", 6379⟩, ⟨"ps", 6380⟩, ⟨6381, ".", 6006⟩, "\x7b\x7d"⟩

/-- A concrete orchestrator for cluster `"exp1"` with module-path agent
and learner scripts and no evaluator. -/
def cDemo : TmuxCluster :=
  ⟨"exp1", cfgDemo, "python -u -m surreal.main.run_agent",
   "python -u -m surreal.main.run_learner", none⟩

/-- The empty backend: no sessions exist. -/
def st0 : TmuxState := ⟨[]⟩

/-- Backend state after `launch(["agent0"], [["--id", 0]])` from empty. -/
def stDemo1 : TmuxState :=
  (cDemo.launch st0 ["agent0"] [AgentArg.listArg ["--id", "0"]]).state

/-- Backend state after a further `add_agents(["agent1"], ["--id 1"])`. -/
def stDemo2 : TmuxState :=
  (cDemo.add_agents stDemo1 ["agent1"] [AgentArg.strArg "--id 1"]).state

/-- Backend state after a further `kill_agents(["agent0"])`. -/
def stDemo3 : TmuxState :=
  (cDemo.kill_agents stDemo2 ["agent0"]).state

/-- Backend state after a final `killall()`. -/
def stDemo4 : TmuxState :=
  (cDemo.killall stDemo3).state

/-- A concrete backend state with panes and error signatures, for
exercising the inspection queries. -/
def stErrDemo : TmuxState :=
  ⟨[("agent-exp1",
     [⟨"w1", "python -u -m surreal.main.run_agent --id 0",
       fun _ => ["line one", "line two"], fun _ => some "Traceback"⟩,
      ⟨"w2", "python -u -m surreal.main.run_agent --id 1",
       fun _ => ["ok"], fun _ => none⟩]),
    ("learner-exp1",
     [⟨"learner", "python -u -m surreal.main.run_learner",
       fun _ => ["training"], fun _ => some ""⟩]),
    ("infras-exp1",
     [⟨"redis-replay", "redis-server --port 6379 --protected-mode no",
       fun _ => ["ready"], fun _ => none⟩])]⟩

/-! Basic lemmas about the backend model. -/

/-- `run` leaves the session list unchanged when the session exists and
appends the session otherwise. -/
theorem sessionNames_run (st : TmuxState) (s w cmd : String) :
    (st.run s w cmd).sessionNames =
      if s ∈ st.sessionNames then st.sessionNames else st.sessionNames ++ [s] := by
  unfold TmuxState.run
  split
  next h =>
    simp only [if_pos h, TmuxState.sessionNames, List.map_map]
    apply List.map_congr_left
    intro p _
    by_cases hp : p.1 = s <;> simp [hp]
  next h =>
    simp [if_neg h, TmuxState.sessionNames]

/-- Membership in the session list after a `run`. -/
theorem mem_sessionNames_run (st : TmuxState) (s w cmd x : String) :
    x ∈ (st.run s w cmd).sessionNames ↔ x ∈ st.sessionNames ∨ x = s := by
  rw [sessionNames_run]
  split
  next h =>
    constructor
    · exact Or.inl
    · rintro (hx | rfl)
      · exact hx
      · exact h
  next h => simp

/-- A `run` preserves existing sessions. -/
theorem mem_sessionNames_run_of_mem {st : TmuxState} {x : String} (s w cmd : String)
    (hx : x ∈ st.sessionNames) : x ∈ (st.run s w cmd).sessionNames :=
  (mem_sessionNames_run st s w cmd x).mpr (Or.inl hx)

/-- A `run` makes its target session exist. -/
theorem self_mem_sessionNames_run (st : TmuxState) (s w cmd : String) :
    s ∈ (st.run s w cmd).sessionNames :=
  (mem_sessionNames_run st s w cmd s).mpr (Or.inr rfl)

/-- A fold of `run` calls against a fixed session preserves existing
sessions. -/
theorem mem_sessionNames_foldl_run {α : Type} (l : List α) (sess : String)
    (f g : α → String) (st : TmuxState) (x : String) (hx : x ∈ st.sessionNames) :
    x ∈ (l.foldl (fun s p => s.run sess (f p) (g p)) st).sessionNames := by
  induction l generalizing st with
  | nil => exact hx
  | cons a t ih => exact ih _ (mem_sessionNames_run_of_mem sess (f a) (g a) hx)

/-- A non-empty fold of `run` calls against a fixed session makes that
session exist. -/
theorem self_mem_sessionNames_foldl_run {α : Type} (a : α) (t : List α) (sess : String)
    (f g : α → String) (st : TmuxState) :
    sess ∈ ((a :: t).foldl (fun s p => s.run sess (f p) (g p)) st).sessionNames := by
  simp only [List.foldl_cons]
  exact mem_sessionNames_foldl_run t sess f g _ sess
    (self_mem_sessionNames_run st sess (f a) (g a))

/-- An absent session has no windows to list. -/
theorem listWindowNames_eq_nil_of_not_mem {st : TmuxState} {s : String}
    (h : s ∉ st.sessionNames) : st.listWindowNames s = [] := by
  unfold TmuxState.listWindowNames TmuxState.findSession
  have : st.sessions.find? (fun p => p.1 == s) = none := by
    rw [List.find?_eq_none]
    intro p hp hbeq
    exact h (by
      simp only [TmuxState.sessionNames]
      exact List.mem_map.mpr ⟨p, hp, by simpa using hbeq⟩)
  simp [this]

/-! Session-name lemmas. -/

/-- Character data of the agent session name. -/
theorem agent_session_data (c : TmuxCluster) :
    c.agent_session.data =
      'a' :: 'g' :: 'e' :: 'n' :: 't' :: '-' :: c.cluster_name.data := rfl

/-- Character data of the learner session name. -/
theorem learner_session_data (c : TmuxCluster) :
    c.learner_session.data =
      'l' :: 'e' :: 'a' :: 'r' :: 'n' :: 'e' :: 'r' :: '-' :: c.cluster_name.data := rfl

/-- Character data of the infrastructure session name. -/
theorem infras_session_data (c : TmuxCluster) :
    c.infras_session.data =
      'i' :: 'n' :: 'f' :: 'r' :: 'a' :: 's' :: '-' :: c.cluster_name.data := rfl

/-- Strings are equal iff their character data are. -/
theorem string_eq_iff_data_eq {a b : String} : a = b ↔ a.data = b.data := by
  constructor
  · intro h; rw [h]
  · intro h; cases a; cases b; exact congrArg String.mk (by simpa using h)

/-- For every cluster name the three session identifiers are pairwise
distinct. -/
theorem sessions_pairwise_ne (c : TmuxCluster) :
    c.infras_session ≠ c.learner_session ∧ c.infras_session ≠ c.agent_session ∧
      c.learner_session ≠ c.agent_session := by
  refine ⟨?_, ?_, ?_⟩ <;>
    · intro h
      rw [string_eq_iff_data_eq] at h
      simp [agent_session_data, learner_session_data, infras_session_data] at h

/-! Lemmas about the launch steps. -/

/-- The loggerplex server command evaluates to the module invocation with
the shell-quoted configuration appended. -/
theorem tensorplex_cmd_loggerplex (c : TmuxCluster) :
    c._get_tensorplex_cmd LOGGERPLEX_SCRIPT =
      .ok ("python -u -m " ++ LOGGERPLEX_SCRIPT ++ " " ++
        shlexQuote c.config.configJson) := rfl

/-- The tensorplex server command evaluates to the module invocation with
the shell-quoted configuration appended. -/
theorem tensorplex_cmd_tensorplex (c : TmuxCluster) :
    c._get_tensorplex_cmd TENSORPLEX_SCRIPT =
      .ok ("python -u -m " ++ TENSORPLEX_SCRIPT ++ " " ++
        shlexQuote c.config.configJson) := rfl

/-- `is_launched` on the `'infras'` tag is the membership test of the
infrastructure session. -/
theorem is_launched_infras (c : TmuxCluster) (st : TmuxState) :
    c.is_launched st "infras" = .ok (decide (c.infras_session ∈ st.sessionNames)) := rfl

/-- `is_launched` on the `'learner'` tag is the membership test of the
learner session. -/
theorem is_launched_learner (c : TmuxCluster) (st : TmuxState) :
    c.is_launched st "learner" = .ok (decide (c.learner_session ∈ st.sessionNames)) := rfl

/-- `is_launched` on the `'agent'` tag is the membership test of the
agent session. -/
theorem is_launched_agent (c : TmuxCluster) (st : TmuxState) :
    c.is_launched st "agent" = .ok (decide (c.agent_session ∈ st.sessionNames)) := rfl

/-- The six infrastructure create calls, in order. -/
def TmuxCluster.infraCalls (c : TmuxCluster) : List TmuxCall :=
  [TmuxCall.runCmd c.infras_session ("redis-" ++ c.config.replay.name)
     (redisCmd c.config.replay.port),
   TmuxCall.runCmd c.infras_session ("redis-" ++ c.config.ps.name)
     (redisCmd c.config.ps.port),
   TmuxCall.runCmd c.infras_session "redis-plex"
     (redisCmd c.config.tensorplex.port),
   TmuxCall.runCmd c.infras_session "loggerplex"
     ("python -u -m " ++ LOGGERPLEX_SCRIPT ++ " " ++ shlexQuote c.config.configJson),
   TmuxCall.runCmd c.infras_session "tensorplex"
     ("python -u -m " ++ TENSORPLEX_SCRIPT ++ " " ++ shlexQuote c.config.configJson),
   TmuxCall.runCmd c.infras_session "tensorboard"
     (tensorboardCmd c.config.tensorplex.folder c.config.tensorplex.tb_port)]

/-- The infrastructure block is skipped when the session exists. -/
theorem infraStep_skip (c : TmuxCluster) (st : TmuxState)
    (h : c.infras_session ∈ st.sessionNames) : c.infraStep st = ⟨st, [], .ok ()⟩ := by
  unfold TmuxCluster.infraStep
  rw [if_pos h]

/-- When the infrastructure session is absent the infrastructure block
issues exactly the six create calls, in order. -/
theorem infraStep_trace_of_not_mem (c : TmuxCluster) (st : TmuxState)
    (h : c.infras_session ∉ st.sessionNames) :
    (c.infraStep st).trace = c.infraCalls := by
  unfold TmuxCluster.infraStep
  rw [if_neg h, tensorplex_cmd_loggerplex, tensorplex_cmd_tensorplex]
  simp [TmuxCluster.redisPairs, TmuxCluster.infraCalls]

/-- The infrastructure block never raises. -/
theorem infraStep_result (c : TmuxCluster) (st : TmuxState) :
    (c.infraStep st).result = .ok () := by
  unfold TmuxCluster.infraStep
  split
  · rfl
  · rw [tensorplex_cmd_loggerplex, tensorplex_cmd_tensorplex]

/-- After the infrastructure block the infrastructure session exists. -/
theorem infraStep_mem (c : TmuxCluster) (st : TmuxState) :
    c.infras_session ∈ (c.infraStep st).state.sessionNames := by
  unfold TmuxCluster.infraStep
  split
  next h => exact h
  next h =>
    rw [tensorplex_cmd_loggerplex, tensorplex_cmd_tensorplex]
    simp only [TmuxCluster.redisPairs]
    exact mem_sessionNames_run_of_mem _ _ _
      (mem_sessionNames_run_of_mem _ _ _
        (mem_sessionNames_run_of_mem _ _ _
          (self_mem_sessionNames_foldl_run _ _ _ _ _ _)))

/-- The infrastructure block preserves existing sessions. -/
theorem infraStep_preserves (c : TmuxCluster) (st : TmuxState) (x : String)
    (hx : x ∈ st.sessionNames) : x ∈ (c.infraStep st).state.sessionNames := by
  unfold TmuxCluster.infraStep
  split
  next => exact hx
  next =>
    rw [tensorplex_cmd_loggerplex, tensorplex_cmd_tensorplex]
    simp only [TmuxCluster.redisPairs]
    exact mem_sessionNames_run_of_mem _ _ _
      (mem_sessionNames_run_of_mem _ _ _
        (mem_sessionNames_run_of_mem _ _ _
          (mem_sessionNames_foldl_run _ _ _ _ _ _ hx)))

/-- Every call of the infrastructure block targets the infrastructure
session. -/
theorem infraStep_trace_sessions (c : TmuxCluster) (st : TmuxState) :
    ∀ t ∈ (c.infraStep st).trace, t.session = c.infras_session := by
  by_cases h : c.infras_session ∈ st.sessionNames
  · rw [infraStep_skip c st h]
    intro t ht
    simp at ht
  · rw [infraStep_trace_of_not_mem c st h]
    intro t ht
    simp only [TmuxCluster.infraCalls, List.mem_cons, List.mem_singleton] at ht
    rcases ht with rfl | rfl | rfl | rfl | rfl | rfl | h'
    all_goals first | rfl | cases h'

/-- The learner block is skipped when the session exists. -/
theorem learnerStep_skip (c : TmuxCluster) (st : TmuxState)
    (h : c.learner_session ∈ st.sessionNames) : c.learnerStep st = (st, []) := by
  unfold TmuxCluster.learnerStep
  rw [if_pos h]

/-- After the learner block the learner session exists. -/
theorem learnerStep_mem (c : TmuxCluster) (st : TmuxState) :
    c.learner_session ∈ (c.learnerStep st).1.sessionNames := by
  unfold TmuxCluster.learnerStep
  split
  next h => exact h
  next h =>
    cases c.evaluator_cmd with
    | none => exact self_mem_sessionNames_run st _ _ _
    | some ec =>
      exact mem_sessionNames_run_of_mem _ _ _ (self_mem_sessionNames_run st _ _ _)

/-- The learner block preserves existing sessions. -/
theorem learnerStep_preserves (c : TmuxCluster) (st : TmuxState) (x : String)
    (hx : x ∈ st.sessionNames) : x ∈ (c.learnerStep st).1.sessionNames := by
  unfold TmuxCluster.learnerStep
  split
  next => exact hx
  next =>
    cases c.evaluator_cmd with
    | none => exact mem_sessionNames_run_of_mem _ _ _ hx
    | some ec =>
      exact mem_sessionNames_run_of_mem _ _ _ (mem_sessionNames_run_of_mem _ _ _ hx)

/-- Every call of the learner block targets the learner session. -/
theorem learnerStep_trace_sessions (c : TmuxCluster) (st : TmuxState) :
    ∀ t ∈ (c.learnerStep st).2, t.session = c.learner_session := by
  unfold TmuxCluster.learnerStep
  split
  next => intro t ht; simp at ht
  next =>
    cases c.evaluator_cmd with
    | none =>
      intro t ht
      simp only [List.mem_singleton] at ht
      subst ht; rfl
    | some ec =>
      intro t ht
      simp only [List.mem_cons, List.mem_singleton] at ht
      rcases ht with rfl | rfl | h'
      · rfl
      · rfl
      · cases h'

/-! Lemmas about `add_agents`. -/

/-- Rejection on a duplicated requested name: no state change, no backend
call. -/
theorem add_agents_not_nodup (c : TmuxCluster) (st : TmuxState)
    (names : List String) (args : List AgentArg) (h : ¬ names.Nodup) :
    c.add_agents st names args =
      ⟨st, [], .error (.assertionError "must not duplicate agent names")⟩ := by
  unfold TmuxCluster.add_agents _get_agent_info
  rw [if_neg h]

/-- Rejection on an arity mismatch: no state change, no backend call. -/
theorem add_agents_len_mismatch (c : TmuxCluster) (st : TmuxState)
    (names : List String) (args : List AgentArg) (h : names.Nodup)
    (hl : names.length ≠ args.length) :
    c.add_agents st names args = ⟨st, [], .error (.assertionError "")⟩ := by
  unfold TmuxCluster.add_agents _get_agent_info
  rw [if_pos h, if_neg hl]

/-- Rejection on an already-running requested name: no state change, no
backend call. -/
theorem add_agents_running (c : TmuxCluster) (st : TmuxState)
    (names : List String) (args : List AgentArg) (h : names.Nodup)
    (hl : names.length = args.length)
    (hr : ∃ x ∈ c.get_running_agents st, x ∈ names) :
    c.add_agents st names args =
      ⟨st, [], .error (.assertionError
        "some agents already running, cannot launch duplicates.")⟩ := by
  unfold TmuxCluster.add_agents _get_agent_info
  rw [if_pos h, if_pos hl]
  simp only []
  rw [if_pos hr]

/-- The successful case: one window-create per agent against the agent
session, commands being the agent command plus that agent's normalized
argument string. -/
theorem add_agents_success (c : TmuxCluster) (st : TmuxState)
    (names : List String) (args : List AgentArg) (h : names.Nodup)
    (hl : names.length = args.length)
    (hr : ¬ ∃ x ∈ c.get_running_agents st, x ∈ names) :
    c.add_agents st names args =
      ⟨(names.zip (args.map AgentArg.toCmd)).foldl
         (fun s p => s.run c.agent_session p.1 (c.agent_cmd ++ " " ++ p.2)) st,
       (names.zip (args.map AgentArg.toCmd)).map
         (fun p => TmuxCall.runCmd c.agent_session p.1 (c.agent_cmd ++ " " ++ p.2)),
       .ok ()⟩ := by
  unfold TmuxCluster.add_agents _get_agent_info
  rw [if_pos h, if_pos hl]
  simp only []
  rw [if_neg hr]

/-- `add_agents` preserves existing sessions. -/
theorem add_agents_preserves (c : TmuxCluster) (st : TmuxState)
    (names : List String) (args : List AgentArg) (x : String)
    (hx : x ∈ st.sessionNames) :
    x ∈ (c.add_agents st names args).state.sessionNames := by
  unfold TmuxCluster.add_agents
  cases hi : _get_agent_info names args with
  | error e => exact hx
  | ok p =>
    cases p with
    | mk ns as =>
      simp only []
      split
      · exact hx
      · exact mem_sessionNames_foldl_run _ _ _ _ _ _ hx

/-- Every call of `add_agents` targets the agent session. -/
theorem add_agents_trace_sessions (c : TmuxCluster) (st : TmuxState)
    (names : List String) (args : List AgentArg) :
    ∀ t ∈ (c.add_agents st names args).trace, t.session = c.agent_session := by
  unfold TmuxCluster.add_agents
  cases hi : _get_agent_info names args with
  | error e => intro t ht; simp at ht
  | ok p =>
    cases p with
    | mk ns as =>
      simp only []
      split
      · intro t ht; simp at ht
      · intro t ht
        obtain ⟨q, _, rfl⟩ := List.mem_map.mp ht
        rfl

/-- When `add_agents` issues no backend call it leaves the backend state
unchanged. -/
theorem add_agents_state_of_trace_nil (c : TmuxCluster) (st : TmuxState)
    (names : List String) (args : List AgentArg)
    (h : (c.add_agents st names args).trace = []) :
    (c.add_agents st names args).state = st := by
  unfold TmuxCluster.add_agents at h ⊢
  cases hi : _get_agent_info names args with
  | error e => rfl
  | ok p =>
    cases p with
    | mk ns as =>
      rw [hi] at h
      simp only [] at h ⊢
      split
      · rfl
      · next hc =>
        rw [if_neg hc] at h
        simp only [List.map_eq_nil_iff] at h
        rw [h]
        rfl

/-! Lemmas about the agent block and `launch`. -/

/-- The agent block is skipped when the agent session exists. -/
theorem agentStep_skip (c : TmuxCluster) (st : TmuxState)
    (names : List String) (args : List AgentArg) (h : c.agent_session ∈ st.sessionNames) :
    c.agentStep st names args = ⟨st, [], .ok ()⟩ := by
  unfold TmuxCluster.agentStep
  rw [if_pos h]

/-- Trace form of `agentStep_skip`. -/
theorem agentStep_skip_trace (c : TmuxCluster) (st : TmuxState)
    (names : List String) (args : List AgentArg) (h : c.agent_session ∈ st.sessionNames) :
    (c.agentStep st names args).trace = [] := by
  rw [agentStep_skip c st names args h]

/-- The agent block delegates to `add_agents` when the agent session is
absent. -/
theorem agentStep_not_mem (c : TmuxCluster) (st : TmuxState)
    (names : List String) (args : List AgentArg) (h : c.agent_session ∉ st.sessionNames) :
    c.agentStep st names args = c.add_agents st names args := by
  unfold TmuxCluster.agentStep
  rw [if_neg h]

/-- The agent block preserves existing sessions. -/
theorem agentStep_preserves (c : TmuxCluster) (st : TmuxState)
    (names : List String) (args : List AgentArg) (x : String)
    (hx : x ∈ st.sessionNames) :
    x ∈ (c.agentStep st names args).state.sessionNames := by
  unfold TmuxCluster.agentStep
  split
  · exact hx
  · exact add_agents_preserves c st names args x hx

/-- Every call of the agent block targets the agent session. -/
theorem agentStep_trace_sessions (c : TmuxCluster) (st : TmuxState)
    (names : List String) (args : List AgentArg) :
    ∀ t ∈ (c.agentStep st names args).trace, t.session = c.agent_session := by
  unfold TmuxCluster.agentStep
  split
  · intro t ht; simp at ht
  · exact add_agents_trace_sessions c st names args

/-- `launch` is the sequential composition of the three blocks (the
infrastructure block never raises, so the remaining blocks always
execute). -/
theorem launch_eq (c : TmuxCluster) (st : TmuxState) (agent_names : List String)
    (agent_args : List AgentArg) :
    c.launch st agent_names agent_args =
      ⟨(c.agentStep (c.learnerStep (c.infraStep st).state).1 agent_names agent_args).state,
       (c.infraStep st).trace ++ (c.learnerStep (c.infraStep st).state).2 ++
         (c.agentStep (c.learnerStep (c.infraStep st).state).1 agent_names agent_args).trace,
       (c.agentStep (c.learnerStep (c.infraStep st).state).1 agent_names agent_args).result⟩ := by
  simp only [TmuxCluster.launch, infraStep_result]

/-- The trace of `launch` splits along the three blocks. -/
theorem launch_trace_eq (c : TmuxCluster) (st : TmuxState) (agent_names : List String)
    (agent_args : List AgentArg) :
    (c.launch st agent_names agent_args).trace =
      (c.infraStep st).trace ++ (c.learnerStep (c.infraStep st).state).2 ++
        (c.agentStep (c.learnerStep (c.infraStep st).state).1 agent_names agent_args).trace := by
  rw [launch_eq]

/-- The final state of `launch` is the state after the agent block. -/
theorem launch_state_eq (c : TmuxCluster) (st : TmuxState) (agent_names : List String)
    (agent_args : List AgentArg) :
    (c.launch st agent_names agent_args).state =
      (c.agentStep (c.learnerStep (c.infraStep st).state).1 agent_names agent_args).state := by
  rw [launch_eq]

/-- Skipped infrastructure block: state form. -/
theorem infraStep_skip_state (c : TmuxCluster) (st : TmuxState)
    (h : c.infras_session ∈ st.sessionNames) : (c.infraStep st).state = st := by
  rw [infraStep_skip c st h]

/-- Skipped infrastructure block: trace form. -/
theorem infraStep_skip_trace (c : TmuxCluster) (st : TmuxState)
    (h : c.infras_session ∈ st.sessionNames) : (c.infraStep st).trace = [] := by
  rw [infraStep_skip c st h]

/-- Skipped learner block: state form. -/
theorem learnerStep_skip_state (c : TmuxCluster) (st : TmuxState)
    (h : c.learner_session ∈ st.sessionNames) : (c.learnerStep st).1 = st := by
  rw [learnerStep_skip c st h]

/-- Skipped learner block: trace form. -/
theorem learnerStep_skip_trace (c : TmuxCluster) (st : TmuxState)
    (h : c.learner_session ∈ st.sessionNames) : (c.learnerStep st).2 = [] := by
  rw [learnerStep_skip c st h]

/-- After a `launch` the infrastructure session exists. -/
theorem launch_state_infras_mem (c : TmuxCluster) (st : TmuxState)
    (agent_names : List String) (agent_args : List AgentArg) :
    c.infras_session ∈ (c.launch st agent_names agent_args).state.sessionNames := by
  rw [launch_state_eq]
  exact agentStep_preserves _ _ _ _ _
    (learnerStep_preserves _ _ _ (infraStep_mem c st))

/-- After a `launch` the learner session exists. -/
theorem launch_state_learner_mem (c : TmuxCluster) (st : TmuxState)
    (agent_names : List String) (agent_args : List AgentArg) :
    c.learner_session ∈ (c.launch st agent_names agent_args).state.sessionNames := by
  rw [launch_state_eq]
  exact agentStep_preserves _ _ _ _ _ (learnerStep_mem c _)

/-- After a `launch` either the agent session exists, or re-running
`add_agents` on the final state with the same arguments issues no
backend call. -/
theorem launch_agent_alt (c : TmuxCluster) (st : TmuxState)
    (agent_names : List String) (agent_args : List AgentArg) :
    c.agent_session ∈ (c.launch st agent_names agent_args).state.sessionNames ∨
      (c.add_agents (c.launch st agent_names agent_args).state
        agent_names agent_args).trace = [] := by
  rw [launch_state_eq]
  by_cases hA : c.agent_session ∈ (c.learnerStep (c.infraStep st).state).1.sessionNames
  · left
    rw [agentStep_skip c _ agent_names agent_args hA]
    exact hA
  · rw [agentStep_not_mem c _ agent_names agent_args hA]
    by_cases hn : agent_names.Nodup
    · by_cases hl : agent_names.length = agent_args.length
      · have hr : ¬ ∃ x ∈ c.get_running_agents (c.learnerStep (c.infraStep st).state).1,
            x ∈ agent_names := by
          unfold TmuxCluster.get_running_agents
          rw [listWindowNames_eq_nil_of_not_mem hA]
          simp
        rw [add_agents_success c _ agent_names agent_args hn hl hr]
        cases agent_names with
        | nil =>
          right
          cases agent_args with
          | nil =>
            simp only [List.zip_nil_left, List.foldl_nil]
            rw [add_agents_success c _ [] [] hn hl hr]
            simp
          | cons a0 t' => simp at hl
        | cons n0 t =>
          cases agent_args with
          | nil => simp at hl
          | cons a0 t' =>
            left
            simp only [List.map_cons, List.zip_cons_cons]
            exact self_mem_sessionNames_foldl_run (n0, a0.toCmd) (t.zip (t'.map AgentArg.toCmd))
              c.agent_session Prod.fst (fun p => c.agent_cmd ++ " " ++ p.2) _
      · right
        rw [add_agents_len_mismatch c _ agent_names agent_args hn hl]
    · right
      rw [add_agents_not_nodup c _ agent_names agent_args hn]

/-- C1: when the infrastructure session is absent, `launch` issues, first
and in this exact order, one redis window-create per (name, port) pair for
the replay store, the parameter store, and the plex broker (each running
`redis-server` on its port with protected mode disabled), then the
loggerplex window (the distributed logging server with the JSON-serialized
configuration as its sole shell-quoted argument), then the tensorplex
window (the distributed metrics server, same pattern), then the
tensorboard window pointed at the configured folder and tb_port; every
remaining call of the launch targets a different session.  When the
infrastructure session already exists, no call of the launch targets it. -/
theorem launch_infra_order (c : TmuxCluster) (st : TmuxState)
    (agent_names : List String) (agent_args : List AgentArg) :
    (c.infras_session ∉ st.sessionNames →
      ∃ rest, (c.launch st agent_names agent_args).trace = c.infraCalls ++ rest ∧
        ∀ t ∈ rest, t.session ≠ c.infras_session) ∧
    (c.infras_session ∈ st.sessionNames →
      ∀ t ∈ (c.launch st agent_names agent_args).trace,
        t.session ≠ c.infras_session) := by
  constructor
  · intro h
    refine ⟨(c.learnerStep (c.infraStep st).state).2 ++
      (c.agentStep (c.learnerStep (c.infraStep st).state).1 agent_names
        agent_args).trace, ?_, ?_⟩
    · rw [launch_trace_eq, infraStep_trace_of_not_mem c st h, List.append_assoc]
    · intro t ht
      rcases List.mem_append.mp ht with hl | ha
      · rw [learnerStep_trace_sessions c _ t hl]
        exact fun hcontra => (sessions_pairwise_ne c).1 hcontra.symm
      · rw [agentStep_trace_sessions c _ _ _ t ha]
        exact fun hcontra => (sessions_pairwise_ne c).2.1 hcontra.symm
  · intro h t ht
    rw [launch_trace_eq, infraStep_skip_trace c st h, infraStep_skip_state c st h,
      List.nil_append] at ht
    rcases List.mem_append.mp ht with hl | ha
    · rw [learnerStep_trace_sessions c _ t hl]
      exact fun hcontra => (sessions_pairwise_ne c).1 hcontra.symm
    · rw [agentStep_trace_sessions c _ _ _ t ha]
      exact fun hcontra => (sessions_pairwise_ne c).2.1 hcontra.symm

/-- Witness for `launch_infra_order` at the concrete `"exp1"`
orchestrator and the empty backend. -/
theorem launch_infra_order_witness :
    cDemo.infras_session ∉ st0.sessionNames ∧
    ∃ rest,
      (cDemo.launch st0 ["agent0"] [AgentArg.listArg ["--id", "0"]]).trace =
        cDemo.infraCalls ++ rest ∧
      ∀ t ∈ rest, t.session ≠ cDemo.infras_session :=
  ⟨by decide,
   (launch_infra_order cDemo st0 ["agent0"] [AgentArg.listArg ["--id", "0"]]).1
     (by decide)⟩

/-- C2: `launch` is idempotent — a second `launch` from the state a first
`launch` produced, with the same arguments, issues zero backend
create-window calls; moreover the three per-group absence checks are
independent: a group whose session already exists receives no call from
a `launch`. -/
theorem launch_idempotent (c : TmuxCluster) (st : TmuxState)
    (agent_names : List String) (agent_args : List AgentArg) :
    (c.launch (c.launch st agent_names agent_args).state
      agent_names agent_args).trace = [] ∧
    (c.infras_session ∈ st.sessionNames →
      ∀ t ∈ (c.launch st agent_names agent_args).trace,
        t.session ≠ c.infras_session) ∧
    (c.learner_session ∈ st.sessionNames →
      ∀ t ∈ (c.launch st agent_names agent_args).trace,
        t.session ≠ c.learner_session) ∧
    (c.agent_session ∈ st.sessionNames →
      ∀ t ∈ (c.launch st agent_names agent_args).trace,
        t.session ≠ c.agent_session) := by
  refine ⟨?_, ?_, ?_, ?_⟩
  · have h1 : c.infras_session ∈
        (c.launch st agent_names agent_args).state.sessionNames :=
      launch_state_infras_mem c st agent_names agent_args
    have h2 : c.learner_session ∈
        (c.launch st agent_names agent_args).state.sessionNames :=
      launch_state_learner_mem c st agent_names agent_args
    rw [launch_trace_eq, infraStep_skip_trace c _ h1, infraStep_skip_state c _ h1,
      learnerStep_skip_trace c _ h2, learnerStep_skip_state c _ h2, List.nil_append,
      List.nil_append]
    rcases launch_agent_alt c st agent_names agent_args with hA | hnil
    · exact agentStep_skip_trace c _ agent_names agent_args hA
    · by_cases hA : c.agent_session ∈
          (c.launch st agent_names agent_args).state.sessionNames
      · exact agentStep_skip_trace c _ agent_names agent_args hA
      · rw [agentStep_not_mem c _ agent_names agent_args hA]
        exact hnil
  · intro h t ht
    rw [launch_trace_eq, infraStep_skip_trace c st h, infraStep_skip_state c st h,
      List.nil_append] at ht
    rcases List.mem_append.mp ht with hl | ha
    · rw [learnerStep_trace_sessions c _ t hl]
      exact fun hcontra => (sessions_pairwise_ne c).1 hcontra.symm
    · rw [agentStep_trace_sessions c _ _ _ t ha]
      exact fun hcontra => (sessions_pairwise_ne c).2.1 hcontra.symm
  · intro h t ht
    rw [launch_trace_eq] at ht
    have h2 : c.learner_session ∈ (c.infraStep st).state.sessionNames :=
      infraStep_preserves c st _ h
    rw [learnerStep_skip_trace c _ h2, learnerStep_skip_state c _ h2,
      List.append_nil] at ht
    rcases List.mem_append.mp ht with hi | ha
    · rw [infraStep_trace_sessions c st t hi]
      exact (sessions_pairwise_ne c).1
    · rw [agentStep_trace_sessions c _ _ _ t ha]
      exact fun hcontra => (sessions_pairwise_ne c).2.2 hcontra.symm
  · intro h t ht
    rw [launch_trace_eq] at ht
    have h3 : c.agent_session ∈
        (c.learnerStep (c.infraStep st).state).1.sessionNames :=
      learnerStep_preserves c _ _ (infraStep_preserves c st _ h)
    rw [agentStep_skip_trace c _ agent_names agent_args h3, List.append_nil] at ht
    rcases List.mem_append.mp ht with hi | hl
    · rw [infraStep_trace_sessions c st t hi]
      exact (sessions_pairwise_ne c).2.1
    · rw [learnerStep_trace_sessions c _ t hl]
      exact (sessions_pairwise_ne c).2.2

/-- Witness for `launch_idempotent` at the concrete `"exp1"` orchestrator:
with the agent session already present in `stDemo1`, a repeated `launch`
issues no call against it. -/
theorem launch_idempotent_witness :
    cDemo.agent_session ∈ stDemo1.sessionNames ∧
    ∀ t ∈ (cDemo.launch stDemo1 ["agent0"] [AgentArg.listArg ["--id", "0"]]).trace,
      t.session ≠ cDemo.agent_session :=
  ⟨by decide,
   (launch_idempotent cDemo stDemo1 ["agent0"] [AgentArg.listArg ["--id", "0"]]).2.2.2
     (by decide)⟩

/-- C3: a rejected `add_agents` is atomic — a duplicated requested name
fails with the duplicate-name error before any backend call, and an
already-running requested name fails with the running-duplicate error
before any backend call; in both cases the backend state is untouched and
the trace is empty. -/
theorem add_agents_atomic (c : TmuxCluster) (st : TmuxState)
    (names : List String) (args : List AgentArg) :
    (¬ names.Nodup →
      c.add_agents st names args =
        ⟨st, [], .error (.assertionError "must not duplicate agent names")⟩) ∧
    (names.Nodup → names.length = args.length →
      (∃ x ∈ names, x ∈ c.get_running_agents st) →
      c.add_agents st names args =
        ⟨st, [], .error (.assertionError
          "some agents already running, cannot launch duplicates.")⟩) := by
  constructor
  · exact add_agents_not_nodup c st names args
  · intro hn hl hr
    refine add_agents_running c st names args hn hl ?_
    obtain ⟨x, hx, hrx⟩ := hr
    exact ⟨x, hrx, hx⟩

/-- Witness for `add_agents_atomic`: the duplicate-name rejection at
`["a", "a"]` and the running-duplicate rejection at the already-running
`"agent0"`, both leaving `stDemo1` untouched. -/
theorem add_agents_atomic_witness :
    (¬ (["a", "a"] : List String).Nodup ∧
      cDemo.add_agents stDemo1 ["a", "a"] [AgentArg.noneArg, AgentArg.noneArg] =
        ⟨stDemo1, [], .error (.assertionError "must not duplicate agent names")⟩) ∧
    ((∃ x ∈ (["agent0"] : List String), x ∈ cDemo.get_running_agents stDemo1) ∧
      cDemo.add_agents stDemo1 ["agent0"] [AgentArg.strArg "--id 0"] =
        ⟨stDemo1, [], .error (.assertionError
          "some agents already running, cannot launch duplicates.")⟩) :=
  ⟨⟨by decide,
    (add_agents_atomic cDemo stDemo1 ["a", "a"]
      [AgentArg.noneArg, AgentArg.noneArg]).1 (by decide)⟩,
   ⟨by decide,
    (add_agents_atomic cDemo stDemo1 ["agent0"] [AgentArg.strArg "--id 0"]).2
      (by decide) (by decide) (by decide)⟩⟩

/-- C4 counterexample: the code's group enumeration is
`agent, learner, infras`, not `agent, learner, infra` — the tag
`"infras"` (outside the claimed enumeration) succeeds, while the claimed
tag `"infra"` fails the assertion. -/
theorem session_group_tag_cex :
    cDemo._session_group "infras" = .ok "infras-exp1" ∧
    cDemo._session_group "infra" = .error (.assertionError "") := by
  constructor <;> decide

/-- C4 amended: for every cluster name, `_session_group` is a pure
deterministic function over the enumeration `infras, learner, agent`,
mapping them to the pairwise-distinct session identifiers, and every tag
outside that enumeration fails the assertion. -/
theorem session_group_amended (c : TmuxCluster) (g : String) :
    (c._session_group "infras" = .ok c.infras_session ∧
     c._session_group "learner" = .ok c.learner_session ∧
     c._session_group "agent" = .ok c.agent_session) ∧
    (c.infras_session ≠ c.learner_session ∧ c.infras_session ≠ c.agent_session ∧
      c.learner_session ≠ c.agent_session) ∧
    (g ∉ (["agent", "learner", "infras"] : List String) →
      c._session_group g = .error (.assertionError "")) := by
  refine ⟨⟨rfl, rfl, rfl⟩, sessions_pairwise_ne c, fun h => ?_⟩
  unfold TmuxCluster._session_group
  rw [if_neg h]

/-- Witness for `session_group_amended` at the tag `"tensorplex"`. -/
theorem session_group_amended_witness :
    ("tensorplex" ∉ (["agent", "learner", "infras"] : List String)) ∧
    cDemo._session_group "tensorplex" = .error (.assertionError "") :=
  ⟨by decide, (session_group_amended cDemo "tensorplex").2.2 (by decide)⟩

/-- C5: the command builder returns a reference starting with the
interpreter name unchanged; otherwise a reference ending in `.py` becomes
`python -u <ref>`; otherwise a reference containing a path separator
fails with the ill-formed-script error; otherwise the reference is
treated as a dotted module path and becomes `python -u -m <ref>`. -/
theorem get_python_cmd_spec (s : String) :
    ("python".data.isPrefixOf s.data → _get_python_cmd s = .ok s) ∧
    (¬ "python".data.isPrefixOf s.data → ".py".data.isSuffixOf s.data →
      _get_python_cmd s = .ok ("python -u " ++ s)) ∧
    (¬ "python".data.isPrefixOf s.data → ¬ ".py".data.isSuffixOf s.data →
      s.data.contains '/' →
      _get_python_cmd s = .error (.valueError ("Ill-formed python script " ++ s ++
        " should be either pkg1.pkg2.myscript or pkg1/pkg2/myscript.py"))) ∧
    (¬ "python".data.isPrefixOf s.data → ¬ ".py".data.isSuffixOf s.data →
      ¬ s.data.contains '/' → _get_python_cmd s = .ok ("python -u -m " ++ s)) := by
  refine ⟨fun h1 => ?_, fun h1 h2 => ?_, fun h1 h2 h3 => ?_, fun h1 h2 h3 => ?_⟩
  · simp [_get_python_cmd, h1]
  · simp [_get_python_cmd, h1, h2]
  · have h3' : '/' ∈ s.data := by simpa using h3
    simp [_get_python_cmd, h1, h2, h3']
  · have h3' : '/' ∉ s.data := by simpa using h3
    simp [_get_python_cmd, h1, h2, h3']

/-- Witness for `get_python_cmd_spec` at the four spec examples and a
bare interpreter invocation. -/
theorem get_python_cmd_spec_witness :
    _get_python_cmd "foo.bar.baz" = .ok ("python -u -m " ++ "foo.bar.baz") ∧
    _get_python_cmd "run.py" = .ok ("python -u " ++ "run.py") ∧
    _get_python_cmd "scripts/run.py" = .ok ("python -u " ++ "scripts/run.py") ∧
    _get_python_cmd "pkg/run" =
      .error (.valueError ("Ill-formed python script " ++ "pkg/run" ++
        " should be either pkg1.pkg2.myscript or pkg1/pkg2/myscript.py")) ∧
    _get_python_cmd "python -u existing" = .ok "python -u existing" :=
  ⟨(get_python_cmd_spec "foo.bar.baz").2.2.2 (by decide) (by decide) (by decide),
   (get_python_cmd_spec "run.py").2.1 (by decide) (by decide),
   (get_python_cmd_spec "scripts/run.py").2.1 (by decide) (by decide),
   (get_python_cmd_spec "pkg/run").2.2.1 (by decide) (by decide) (by decide),
   (get_python_cmd_spec "python -u existing").1 (by decide)⟩

/-- C6 counterexample: in the launched scenario state, the query
`is_launched("infra")` does not return true — the tag `"infra"` is outside
the code's enumeration and the call fails the group assertion. -/
theorem scenario_infra_tag_cex :
    cDemo.is_launched stDemo1 "infra" = .error (.assertionError "") := by decide

/-- C6 amended: the end-to-end scenario with the code's `"infras"` tag —
after `launch(["agent0"], [["--id", 0]])` from an empty backend all three
groups report launched and the running agents are `["agent0"]`; after
`add_agents(["agent1"], ["--id 1"])` both agents run in creation order;
after `kill_agents(["agent0"])` only `"agent1"` remains; after `killall()`
all three groups report not launched. -/
theorem scenario_amended :
    cDemo.is_launched stDemo1 "infras" = .ok true ∧
    cDemo.is_launched stDemo1 "learner" = .ok true ∧
    cDemo.is_launched stDemo1 "agent" = .ok true ∧
    cDemo.get_running_agents stDemo1 = ["agent0"] ∧
    (cDemo.add_agents stDemo1 ["agent1"] [AgentArg.strArg "--id 1"]).result = .ok () ∧
    cDemo.get_running_agents stDemo2 = ["agent0", "agent1"] ∧
    (cDemo.kill_agents stDemo2 ["agent0"]).result = .ok () ∧
    cDemo.get_running_agents stDemo3 = ["agent1"] ∧
    cDemo.is_launched stDemo4 "infras" = .ok false ∧
    cDemo.is_launched stDemo4 "learner" = .ok false ∧
    cDemo.is_launched stDemo4 "agent" = .ok false := by
  refine ⟨?_, ?_, ?_, ?_, ?_, ?_, ?_, ?_, ?_, ?_, ?_⟩ <;> decide

/-! Lemmas for `kill_agents`. -/

/-- A `filterMap` whose function is `some` on every element of the list
is the identity. -/
theorem filterMap_eq_self_of {α : Type} (l : List α) (f : α → Option α)
    (h : ∀ a ∈ l, f a = some a) : l.filterMap f = l := by
  induction l with
  | nil => rfl
  | cons a t ih =>
    rw [List.filterMap_cons, h a (List.mem_cons_self a t),
      ih (fun x hx => h x (List.mem_cons_of_mem a hx))]

/-- With distinct session names, looking up the session of a member pair
finds its window list. -/
theorem findSession_of_mem {l : List (String × List Window)}
    {p : String × List Window} (hnd : (l.map Prod.fst).Nodup) (hp : p ∈ l) :
    (TmuxState.mk l).findSession p.1 = some p.2 := by
  induction l with
  | nil => cases hp
  | cons a t ih =>
    rcases List.mem_cons.mp hp with rfl | hpt
    · unfold TmuxState.findSession
      simp
    · have hne : ¬ (a.1 == p.1) = true := by
        simp only [List.map_cons, List.nodup_cons] at hnd
        intro hcontra
        exact hnd.1 (by
          rw [beq_iff_eq] at hcontra
          rw [hcontra]
          exact List.mem_map.mpr ⟨p, hpt, rfl⟩)
      have ht : Option.map Prod.snd (List.find? (fun q => q.1 == p.1) t) =
          some p.2 :=
        ih (by simp only [List.map_cons, List.nodup_cons] at hnd; exact hnd.2) hpt
      have hstep : List.find? (fun q => q.1 == p.1) (a :: t) =
          List.find? (fun q => q.1 == p.1) t := by
        have hne' : (a.1 == p.1) = false := by simpa using hne
        simp [List.find?, hne']
      unfold TmuxState.findSession
      show Option.map Prod.snd (List.find? (fun q => q.1 == p.1) (a :: t)) = some p.2
      rw [hstep]
      exact ht

/-- With distinct session names, killing a window that does not exist in
the target session leaves the backend unchanged. -/
theorem killWindow_eq_self (st : TmuxState) (s w : String)
    (hnd : st.sessionNames.Nodup) (hw : w ∉ st.listWindowNames s) :
    st.killWindow s w = st := by
  unfold TmuxState.killWindow
  cases st with
  | mk l =>
    congr 1
    apply filterMap_eq_self_of
    intro p hp
    by_cases hps : p.1 = s
    · have hfind : (TmuxState.mk l).findSession s = some p.2 := by
        rw [← hps]
        exact findSession_of_mem hnd hp
      have hwn : w ∉ p.2.map Window.name := by
        intro hcontra
        apply hw
        unfold TmuxState.listWindowNames
        rw [hfind]
        exact hcontra
      have hany : p.2.any (fun wd => wd.name == w) = false := by
        rw [List.any_eq_false]
        intro wd hwd hbeq
        exact hwn (List.mem_map.mpr ⟨wd, hwd, by simpa using hbeq⟩)
      simp [hps, hany]
    · simp [hps]

/-- C9: `kill_agents` fails with the fleet-not-launched error, touching
nothing, when the agent session does not exist; otherwise it succeeds and
issues exactly one window-kill per given name against the agent session;
killing a name with no matching window leaves the backend unchanged. -/
theorem kill_agents_spec (c : TmuxCluster) (st : TmuxState)
    (names : List String) (n : String) :
    (c.agent_session ∉ st.sessionNames →
      c.kill_agents st names =
        ⟨st, [], .error (.assertionError "agents not yet launched")⟩) ∧
    (c.agent_session ∈ st.sessionNames →
      (c.kill_agents st names).trace =
        names.map (fun m => TmuxCall.killWindow c.agent_session m) ∧
      (c.kill_agents st names).result = .ok ()) ∧
    (c.agent_session ∈ st.sessionNames → st.sessionNames.Nodup →
      n ∉ st.listWindowNames c.agent_session →
      c.kill_agents st [n] =
        ⟨st, [TmuxCall.killWindow c.agent_session n], .ok ()⟩) := by
  refine ⟨fun h => ?_, fun h => ?_, fun h hnd hw => ?_⟩
  · unfold TmuxCluster.kill_agents
    rw [if_neg h]
  · unfold TmuxCluster.kill_agents
    rw [if_pos h]
    exact ⟨rfl, rfl⟩
  · unfold TmuxCluster.kill_agents
    rw [if_pos h]
    simp only [List.foldl_cons, List.foldl_nil, List.map_cons, List.map_nil]
    rw [killWindow_eq_self st c.agent_session n hnd hw]

/-- Witness for `kill_agents_spec`: killing the absent name `"ghost"`
in the two-agent scenario state succeeds and changes nothing. -/
theorem kill_agents_spec_witness :
    (cDemo.agent_session ∈ stDemo2.sessionNames ∧ stDemo2.sessionNames.Nodup ∧
      "ghost" ∉ stDemo2.listWindowNames cDemo.agent_session) ∧
    cDemo.kill_agents stDemo2 ["ghost"] =
      ⟨stDemo2, [TmuxCall.killWindow cDemo.agent_session "ghost"], .ok ()⟩ :=
  ⟨⟨by decide, by decide, by decide⟩,
   (kill_agents_spec cDemo stDemo2 ["ghost"] "ghost").2.2
     (by decide) (by decide) (by decide)⟩

/-! Lemmas about the ordered-mapping loops. -/

/-- OrderedDict assignment with a fresh key appends the entry. -/
theorem odSet_fresh (od : List (String × String)) (k v : String)
    (h : k ∉ od.map Prod.fst) : odSet od k v = od ++ [(k, v)] := by
  have hany : od.any (fun p => p.1 == k) = false := by
    rw [List.any_eq_false]
    intro p hp hbeq
    exact h (List.mem_map.mpr ⟨p, hp, by simpa using hbeq⟩)
  unfold odSet
  simp [hany]

/-- When all produced keys are distinct (and fresh relative to the
accumulator), the ordered-mapping fold is plain accumulation. -/
theorem foldl_odStep_eq {α : Type} (g : α → Option (String × String))
    (l : List α) (init : List (String × String))
    (hnd : (init.map Prod.fst ++ (l.filterMap g).map Prod.fst).Nodup) :
    l.foldl (odStep g) init = init ++ l.filterMap g := by
  induction l generalizing init with
  | nil => simp
  | cons a t ih =>
    rw [List.foldl_cons]
    cases hga : g a with
    | none =>
      have hstep : odStep g init a = init := by simp [odStep, hga]
      have hfm : (a :: t).filterMap g = t.filterMap g :=
        List.filterMap_cons_none hga
      rw [hstep, hfm]
      rw [hfm] at hnd
      exact ih init hnd
    | some kv =>
      have hfm : (a :: t).filterMap g = kv :: t.filterMap g :=
        List.filterMap_cons_some hga
      rw [hfm] at hnd
      have hfresh : kv.1 ∉ init.map Prod.fst := by
        intro hmem
        have hdisj := (List.nodup_append.mp (by simpa using hnd)).2.2
        exact hdisj hmem (List.mem_cons_self _ _)
      have hstep : odStep g init a = init ++ [kv] := by
        simp only [odStep, hga]
        exact odSet_fresh init kv.1 kv.2 hfresh
      rw [hstep]
      have hnd' : ((init ++ [kv]).map Prod.fst ++
          (t.filterMap g).map Prod.fst).Nodup := by
        rw [List.map_append, List.append_assoc]
        simpa using hnd
      rw [ih (init ++ [kv]) hnd', hfm, List.append_assoc]
      rfl

/-- A `filterMap` by a guarded `some` is a `filter` followed by a
`map`. -/
theorem filterMap_if_eq {α β : Type} (l : List α) (q : α → Bool) (f : α → β) :
    l.filterMap (fun x => if q x then some (f x) else none) =
      (l.filter q).map f := by
  induction l with
  | nil => rfl
  | cons a t ih =>
    cases hqa : q a <;> simp [List.filterMap_cons, List.filter_cons, hqa, ih]

/-- The keys of a filter-mapped ordered mapping form a sublist of the
keys of the underlying list. -/
theorem filterMap_keys_sublist {α : Type} (g : α → Option (String × String))
    (key : α → String) (hg : ∀ x kv, g x = some kv → kv.1 = key x) (l : List α) :
    ((l.filterMap g).map Prod.fst).Sublist (l.map key) := by
  induction l with
  | nil => simp
  | cons a t ih =>
    cases hga : g a with
    | none =>
      rw [List.filterMap_cons_none hga, List.map_cons]
      exact ih.cons _
    | some kv =>
      rw [List.filterMap_cons_some hga, List.map_cons, List.map_cons,
        hg a kv hga]
      exact ih.cons₂ _

/-- The two skip conditions of `get_stdout` combined into one guard. -/
theorem stdoutEntry_eq (st : TmuxState) (group window : Option String)
    (history : Nat) (p : String × String) :
    stdoutEntry st group window history p =
      if !skipByFilter group p.1 && !skipByFilter window p.2 then
        some (stdoutPairEntry st history p)
      else none := by
  unfold stdoutEntry
  cases h1 : skipByFilter group p.1 <;> cases h2 : skipByFilter window p.2 <;>
    simp [h1, h2]

/-- The window iteration is the concatenation of the per-session window
enumerations: agent first, then learner, then infrastructure. -/
theorem iterate_eq (c : TmuxCluster) (st : TmuxState) :
    c._iterate_all_windows st =
      (st.listWindowNames c.agent_session).map (fun w => (c.agent_session, w)) ++
      ((st.listWindowNames c.learner_session).map (fun w => (c.learner_session, w)) ++
       (st.listWindowNames c.infras_session).map (fun w => (c.infras_session, w))) := by
  unfold TmuxCluster._iterate_all_windows
  simp

/-! Distinctness of the `"session:window"` keys. -/

/-- The agent session name is never empty. -/
theorem agent_session_ne_empty (c : TmuxCluster) : c.agent_session ≠ "" := by
  intro h
  rw [string_eq_iff_data_eq, agent_session_data] at h
  simp at h

/-- The learner session name is never empty. -/
theorem learner_session_ne_empty (c : TmuxCluster) : c.learner_session ≠ "" := by
  intro h
  rw [string_eq_iff_data_eq, learner_session_data] at h
  simp at h

/-- The infrastructure session name is never empty. -/
theorem infras_session_ne_empty (c : TmuxCluster) : c.infras_session ≠ "" := by
  intro h
  rw [string_eq_iff_data_eq, infras_session_data] at h
  simp at h

/-- Keys of the same session are injective in the window name. -/
theorem key_inj (s : String) : Function.Injective (fun w => s ++ ":" ++ w) := by
  intro w1 w2 h
  rw [string_eq_iff_data_eq] at h ⊢
  simp only [String.data_append] at h
  exact List.append_cancel_left h

/-- Keys of sessions whose names start with different characters are
distinct, whatever the window names. -/
theorem key_ne_cross {s1 s2 : String} {c1 c2 : Char} {t1 t2 : List Char}
    (h1 : s1.data = c1 :: t1) (h2 : s2.data = c2 :: t2) (hne : c1 ≠ c2)
    (w1 w2 : String) : s1 ++ ":" ++ w1 ≠ s2 ++ ":" ++ w2 := by
  intro h
  rw [string_eq_iff_data_eq] at h
  simp only [String.data_append, h1, h2, List.cons_append, List.cons.injEq] at h
  exact hne h.1

/-- Under per-session window-name uniqueness, all `"session:window"` keys
of the iteration are distinct. -/
theorem iterate_keys_nodup (c : TmuxCluster) (st : TmuxState)
    (h : clusterWindowsNodup c st) :
    ((c._iterate_all_windows st).map (fun p => p.1 ++ ":" ++ p.2)).Nodup := by
  have hA := h c.agent_session (by simp)
  have hL := h c.learner_session (by simp)
  have hI := h c.infras_session (by simp)
  rw [iterate_eq]
  rw [List.map_append, List.map_append, List.map_map, List.map_map, List.map_map]
  have hkA : ((st.listWindowNames c.agent_session).map
      ((fun p : String × String => p.1 ++ ":" ++ p.2) ∘
        (fun w => (c.agent_session, w)))).Nodup := hA.map (fun w1 w2 hw =>
    key_inj c.agent_session hw)
  have hkL : ((st.listWindowNames c.learner_session).map
      ((fun p : String × String => p.1 ++ ":" ++ p.2) ∘
        (fun w => (c.learner_session, w)))).Nodup := hL.map (fun w1 w2 hw =>
    key_inj c.learner_session hw)
  have hkI : ((st.listWindowNames c.infras_session).map
      ((fun p : String × String => p.1 ++ ":" ++ p.2) ∘
        (fun w => (c.infras_session, w)))).Nodup := hI.map (fun w1 w2 hw =>
    key_inj c.infras_session hw)
  rw [List.nodup_append]
  refine ⟨hkA, ?_, ?_⟩
  · rw [List.nodup_append]
    refine ⟨hkL, hkI, ?_⟩
    · intro x hx1 hx2
      obtain ⟨w1, _, rfl⟩ := List.mem_map.mp hx1
      obtain ⟨w2, _, heq⟩ := List.mem_map.mp hx2
      exact key_ne_cross (infras_session_data c) (learner_session_data c)
        (by decide) w2 w1 (by simpa using heq)
  · intro x hx1 hx2
    obtain ⟨w1, _, rfl⟩ := List.mem_map.mp hx1
    rcases List.mem_append.mp hx2 with hxL | hxI
    · obtain ⟨w2, _, heq⟩ := List.mem_map.mp hxL
      exact key_ne_cross (learner_session_data c) (agent_session_data c)
        (by decide) w2 w1 (by simpa using heq)
    · obtain ⟨w2, _, heq⟩ := List.mem_map.mp hxI
      exact key_ne_cross (infras_session_data c) (agent_session_data c)
        (by decide) w2 w1 (by simpa using heq)

/-- Every entry `get_stdout` records is keyed `"session:window"`. -/
theorem stdoutEntry_key (st : TmuxState) (group window : Option String)
    (history : Nat) :
    ∀ p kv, stdoutEntry st group window history p = some kv →
      kv.1 = p.1 ++ ":" ++ p.2 := by
  intro p kv hkv
  rw [stdoutEntry_eq] at hkv
  split at hkv
  · injection hkv with hkv'
    rw [← hkv']
    rfl
  · cases hkv

/-- Every entry `check_error` records is keyed `"session:window"`. -/
theorem errEntry_key (st : TmuxState) :
    ∀ p kv, errEntry st p = some kv → kv.1 = p.1 ++ ":" ++ p.2 := by
  intro p kv hkv
  unfold errEntry at hkv
  cases hfe : st.findError p.1 p.2 100 with
  | none => rw [hfe] at hkv; cases hkv
  | some e =>
    rw [hfe] at hkv
    have hkv2 : (if (e == "") = true then none
        else some (p.1 ++ ":" ++ p.2, e)) = some kv := hkv
    by_cases he : (e == "") = true
    · rw [if_pos he] at hkv2; cases hkv2
    · rw [if_neg he] at hkv2
      injection hkv2 with hkv'
      rw [← hkv']

/-- Under per-session window-name uniqueness, the `get_stdout` loop is a
filter of the iteration followed by the per-pair entry map. -/
theorem gatherStdout_eq (c : TmuxCluster) (st : TmuxState)
    (group window : Option String) (history : Nat)
    (h : clusterWindowsNodup c st) :
    gatherStdout c st group window history =
      ((c._iterate_all_windows st).filter
        (fun p => !skipByFilter group p.1 && !skipByFilter window p.2)).map
        (stdoutPairEntry st history) := by
  unfold gatherStdout
  rw [foldl_odStep_eq (stdoutEntry st group window history)
    (c._iterate_all_windows st) []
    (by
      rw [List.map_nil, List.nil_append]
      exact List.Nodup.sublist
        (filterMap_keys_sublist (stdoutEntry st group window history)
          (fun p => p.1 ++ ":" ++ p.2) (stdoutEntry_key st group window history)
          (c._iterate_all_windows st))
        (iterate_keys_nodup c st h))]
  rw [List.nil_append]
  rw [show stdoutEntry st group window history = fun p =>
      if !skipByFilter group p.1 && !skipByFilter window p.2 then
        some (stdoutPairEntry st history p) else none from
    funext (stdoutEntry_eq st group window history)]
  exact filterMap_if_eq _ _ _

/-- Under per-session window-name uniqueness, the `check_error` loop is a
filter-map over the iteration. -/
theorem check_error_eq_filterMap (c : TmuxCluster) (st : TmuxState)
    (h : clusterWindowsNodup c st) :
    c.check_error st = (c._iterate_all_windows st).filterMap (errEntry st) := by
  unfold TmuxCluster.check_error
  rw [foldl_odStep_eq (errEntry st) (c._iterate_all_windows st) []
    (by
      rw [List.map_nil, List.nil_append]
      exact List.Nodup.sublist
        (filterMap_keys_sublist (errEntry st) (fun p => p.1 ++ ":" ++ p.2)
          (errEntry_key st) (c._iterate_all_windows st))
        (iterate_keys_nodup c st h))]
  rw [List.nil_append]

/-- C7: `get_stdout` fails the ambiguity assertion whenever a window is
given without a group; with no filters it returns one entry per existing
(session, window) pair, keyed `"session:window"`, valued with the
captured pane text (at the requested scroll-back depth) joined by
newline; a given valid group restricts the pairs to that group's session,
and a given non-empty window name further restricts them to that
window. -/
theorem get_stdout_spec (c : TmuxCluster) (st : TmuxState) (g w : String)
    (history : Nat) :
    (c.get_stdout st none (some w) history = .error (.assertionError "")) ∧
    (clusterWindowsNodup c st →
      c.get_stdout st none none history =
        .ok ((c._iterate_all_windows st).map (stdoutPairEntry st history))) ∧
    (clusterWindowsNodup c st → g ∈ (["agent", "learner", "infras"] : List String) →
      ∀ gs, c._session_group g = .ok gs →
        c.get_stdout st (some g) none history =
          .ok (((c._iterate_all_windows st).filter (fun p => gs == p.1)).map
            (stdoutPairEntry st history))) ∧
    (clusterWindowsNodup c st → g ∈ (["agent", "learner", "infras"] : List String) →
      w ≠ "" →
      ∀ gs, c._session_group g = .ok gs →
        c.get_stdout st (some g) (some w) history =
          .ok (((c._iterate_all_windows st).filter
            (fun p => gs == p.1 && w == p.2)).map (stdoutPairEntry st history))) := by
  have hgs_ne : ∀ gs, g ∈ (["agent", "learner", "infras"] : List String) →
      c._session_group g = .ok gs → gs ≠ "" := by
    intro gs hmem hgs
    rcases (by simpa using hmem : g = "agent" ∨ g = "learner" ∨ g = "infras") with
      rfl | rfl | rfl
    · rw [show c._session_group "agent" = .ok c.agent_session from rfl] at hgs
      injection hgs with hgs'
      rw [← hgs']
      exact agent_session_ne_empty c
    · rw [show c._session_group "learner" = .ok c.learner_session from rfl] at hgs
      injection hgs with hgs'
      rw [← hgs']
      exact learner_session_ne_empty c
    · rw [show c._session_group "infras" = .ok c.infras_session from rfl] at hgs
      injection hgs with hgs'
      rw [← hgs']
      exact infras_session_ne_empty c
  refine ⟨rfl, fun h => ?_, fun h hmem gs hgs => ?_, fun h hmem hw gs hgs => ?_⟩
  · show Except.ok (gatherStdout c st none none history) = _
    rw [gatherStdout_eq c st none none history h]
    rw [show (fun p : String × String =>
        !skipByFilter none p.1 && !skipByFilter none p.2) = fun _ => true from
      funext (fun p => by simp [skipByFilter])]
    rw [List.filter_true]
  · have hne := hgs_ne gs hmem hgs
    show (c._session_group g).map
      (fun gs => gatherStdout c st (some gs) none history) = _
    rw [hgs]
    show Except.ok (gatherStdout c st (some gs) none history) = _
    rw [gatherStdout_eq c st (some gs) none history h]
    rw [show (fun p : String × String =>
        !skipByFilter (some gs) p.1 && !skipByFilter none p.2) =
        (fun p : String × String => gs == p.1) from funext (fun p => by
      have hne' : (gs == "") = false := by simpa using hne
      simp [skipByFilter, hne'])]
  · have hne := hgs_ne gs hmem hgs
    show (c._session_group g).map
      (fun gs => gatherStdout c st (some gs) (some w) history) = _
    rw [hgs]
    show Except.ok (gatherStdout c st (some gs) (some w) history) = _
    rw [gatherStdout_eq c st (some gs) (some w) history h]
    rw [show (fun p : String × String =>
        !skipByFilter (some gs) p.1 && !skipByFilter (some w) p.2) =
        (fun p : String × String => gs == p.1 && w == p.2) from funext (fun p => by
      have hne' : (gs == "") = false := by simpa using hne
      have hw' : (w == "") = false := by simpa using hw
      simp [skipByFilter, hne', hw'])]

/-- Witness for `get_stdout_spec`: the group/window-restricted query on
the concrete inspected backend. -/
theorem get_stdout_spec_witness :
    (clusterWindowsNodup cDemo stErrDemo ∧
      "agent" ∈ (["agent", "learner", "infras"] : List String) ∧
      ("w1" : String) ≠ "" ∧
      cDemo._session_group "agent" = .ok "agent-exp1") ∧
    cDemo.get_stdout stErrDemo (some "agent") (some "w1") 0 =
      .ok (((cDemo._iterate_all_windows stErrDemo).filter
        (fun p => "agent-exp1" == p.1 && "w1" == p.2)).map
        (stdoutPairEntry stErrDemo 0)) :=
  ⟨⟨by decide, by decide, by decide, by decide⟩,
   (get_stdout_spec cDemo stErrDemo "agent" "w1" 0).2.2.2
     (by decide) (by decide) (by decide) "agent-exp1" (by decide)⟩

/-- C8: `check_error` contains exactly the iterated (session, window)
pairs whose backend error scan at the fixed scroll-back depth of 100
found a (truthy) error, keyed `"session:window"` and valued with the
error text; no-match entries are omitted. -/
theorem check_error_spec (c : TmuxCluster) (st : TmuxState)
    (h : clusterWindowsNodup c st) (k v : String) :
    (k, v) ∈ c.check_error st ↔
      ∃ p ∈ c._iterate_all_windows st,
        k = p.1 ++ ":" ++ p.2 ∧ st.findError p.1 p.2 100 = some v ∧ v ≠ "" := by
  rw [check_error_eq_filterMap c st h, List.mem_filterMap]
  constructor
  · rintro ⟨p, hp, hep⟩
    refine ⟨p, hp, ?_⟩
    unfold errEntry at hep
    cases hfe : st.findError p.1 p.2 100 with
    | none => rw [hfe] at hep; cases hep
    | some e =>
      rw [hfe] at hep
      have hep2 : (if (e == "") = true then none
          else some (p.1 ++ ":" ++ p.2, e)) = some (k, v) := hep
      by_cases he : (e == "") = true
      · rw [if_pos he] at hep2; cases hep2
      · rw [if_neg he] at hep2
        injection hep2 with hpair
        rw [Prod.mk.injEq] at hpair
        obtain ⟨hk, hv⟩ := hpair
        refine ⟨hk.symm, ?_, ?_⟩
        · exact congrArg some hv
        · rw [← hv]
          simpa using he
  · rintro ⟨p, hp, hk, hfe, hv⟩
    refine ⟨p, hp, ?_⟩
    unfold errEntry
    rw [hfe]
    show (if (v == "") = true then none
        else some (p.1 ++ ":" ++ p.2, v)) = some (k, v)
    rw [if_neg (by simpa using hv), hk]

/-- Witness for `check_error_spec`: the Traceback entry of the concrete
inspected backend. -/
theorem check_error_spec_witness :
    clusterWindowsNodup cDemo stErrDemo ∧
    (("agent-exp1:w1", "Traceback") ∈ cDemo.check_error stErrDemo ↔
      ∃ p ∈ cDemo._iterate_all_windows stErrDemo,
        "agent-exp1:w1" = p.1 ++ ":" ++ p.2 ∧
        stErrDemo.findError p.1 p.2 100 = some "Traceback" ∧
        ("Traceback" : String) ≠ "") :=
  ⟨by decide,
   check_error_spec cDemo stErrDemo (by decide) "agent-exp1:w1" "Traceback"⟩

/-- The `"session:window"` keys of the iteration are the per-session key
lists in the fixed session order. -/
theorem iterate_keys_eq (c : TmuxCluster) (st : TmuxState) :
    (c._iterate_all_windows st).map (fun p => p.1 ++ ":" ++ p.2) =
      (st.listWindowNames c.agent_session).map
        (fun w => c.agent_session ++ ":" ++ w) ++
      ((st.listWindowNames c.learner_session).map
        (fun w => c.learner_session ++ ":" ++ w) ++
       (st.listWindowNames c.infras_session).map
        (fun w => c.infras_session ++ ":" ++ w)) := by
  rw [iterate_eq, List.map_append, List.map_append, List.map_map, List.map_map,
    List.map_map]
  rfl

/-- C10: with no filters, the ordered mapping of `get_stdout` lists every
agent-session window first, then every learner-session window, then
every infrastructure-session window, each batch in the backend's listing
order; the keys of `check_error` are a sublist of that same
enumeration. -/
theorem report_order_spec (c : TmuxCluster) (st : TmuxState) (history : Nat)
    (h : clusterWindowsNodup c st) :
    (∀ out, c.get_stdout st none none history = .ok out →
      out.map Prod.fst =
        (st.listWindowNames c.agent_session).map
          (fun w => c.agent_session ++ ":" ++ w) ++
        ((st.listWindowNames c.learner_session).map
          (fun w => c.learner_session ++ ":" ++ w) ++
         (st.listWindowNames c.infras_session).map
          (fun w => c.infras_session ++ ":" ++ w))) ∧
    ((c.check_error st).map Prod.fst).Sublist
      ((st.listWindowNames c.agent_session).map
        (fun w => c.agent_session ++ ":" ++ w) ++
       ((st.listWindowNames c.learner_session).map
        (fun w => c.learner_session ++ ":" ++ w) ++
        (st.listWindowNames c.infras_session).map
         (fun w => c.infras_session ++ ":" ++ w))) := by
  constructor
  · intro out hout
    have h0 : c.get_stdout st none none history =
        .ok (gatherStdout c st none none history) := rfl
    rw [h0] at hout
    injection hout with h1
    rw [← h1, gatherStdout_eq c st none none history h]
    rw [show (fun p : String × String =>
        !skipByFilter none p.1 && !skipByFilter none p.2) = fun _ => true from
      funext (fun p => by simp [skipByFilter])]
    rw [List.filter_true, List.map_map]
    rw [show (Prod.fst ∘ stdoutPairEntry st history) =
        (fun p : String × String => p.1 ++ ":" ++ p.2) from funext fun p => rfl]
    exact iterate_keys_eq c st
  · rw [check_error_eq_filterMap c st h]
    have hsub := filterMap_keys_sublist (errEntry st)
      (fun p => p.1 ++ ":" ++ p.2) (errEntry_key st) (c._iterate_all_windows st)
    rw [iterate_keys_eq] at hsub
    exact hsub

/-- Witness for `report_order_spec` on the concrete inspected backend. -/
theorem report_order_spec_witness :
    clusterWindowsNodup cDemo stErrDemo ∧
    ((cDemo.check_error stErrDemo).map Prod.fst).Sublist
      ((stErrDemo.listWindowNames cDemo.agent_session).map
        (fun w => cDemo.agent_session ++ ":" ++ w) ++
       ((stErrDemo.listWindowNames cDemo.learner_session).map
        (fun w => cDemo.learner_session ++ ":" ++ w) ++
        (stErrDemo.listWindowNames cDemo.infras_session).map
         (fun w => cDemo.infras_session ++ ":" ++ w))) :=
  ⟨by decide, (report_order_spec cDemo stErrDemo 0 (by decide)).2⟩
